import Mathlib

/-!
Shallow embedding of the e2e-runner of the exposure-notifications
verification server: the credential provisioning / lifecycle coordination
in `pkg/e2e` (`Setup`, `randomString`, the two deferred revocations and the
returned done function) and the HTTP trigger handlers in
`cmd/e2e-runner/main.go` (`defaultHandler`, `reviseHandler`).

The database is modelled as an explicit state (realms and authorized apps);
every fallible collaborator call (config load, open, realm lookup/save,
entropy read, credential creation, teardown fetch/persist) is driven by a
failure plan so that every control-flow path of the Go code is reachable.
The SHA-256 digest of `crypto/sha256` is abstracted as the plan's `digest`
function; theorems that need it assume only its output length (32 bytes),
which is true of the real hash.  Goroutine/channel behaviour is modelled by
phases: `startPhase` is the background task up to its single send on the
`ready` channel, `setupRun` is the whole background task including the
deferred cleanups that run after that send, and `invokeTeardown` is the
returned `func() { close(done) }`, where `none` models a panic
(close of an already-closed channel, or a nil-pointer dereference).
-/

namespace E2E

/-- API key types, from `database.APIKeyTypeAdmin` / `database.APIKeyTypeDevice`. -/
inductive APIKeyType where
  | admin
  | device
deriving DecidableEq, Repr

/-- A realm: named tenant boundary with a region code. -/
structure Realm where
  name : String
  regionCode : String
deriving DecidableEq, Repr

/-- An authorized app (API credential): name, type, the opaque key value used
to re-fetch it, and the soft-delete timestamp `DeletedAt`. -/
structure AuthorizedApp where
  name : String
  apiKeyType : APIKeyType
  apiKey : String
  deletedAt : Option Nat
deriving DecidableEq, Repr

/-- The database state: the realms and authorized apps it holds. -/
structure DBState where
  realms : List Realm
  apps : List AuthorizedApp
deriving DecidableEq, Repr

/-- Constant `realmName` of pkg/e2e. -/
def realmName : String := "e2e-test-realm"

/-- Constant `realmRegionCode` of pkg/e2e. -/
def realmRegionCode : String := "e2e-test"

/-- Constant `adminKeyName` of pkg/e2e. -/
def adminKeyName : String := "e2e-admin-key."

/-- Constant `deviceKeyName` of pkg/e2e. -/
def deviceKeyName : String := "e2e-device-key."

/-- One lowercase hexadecimal digit, as produced by Go's `%x` verb. -/
def hexDigitChar (n : Nat) : Char :=
  if n < 10 then Char.ofNat (48 + n) else Char.ofNat (87 + n)

/-- Lowercase hex encoding of a byte sequence (two digits per byte), as
produced by `fmt.Sprintf("%x", digest)`; bytes are reduced mod 256. -/
def hexChars : List Nat → List Char
  | [] => []
  | b :: bs => hexDigitChar (b % 256 / 16) :: hexDigitChar (b % 16) :: hexChars bs

/-- The hex string over a byte list. -/
def hexString (bytes : List Nat) : String :=
  String.mk (hexChars bytes)

/-- `db.FindRealmByName`: first realm with the given name, none models
gorm's record-not-found. -/
def findRealmByName (st : DBState) (n : String) : Option Realm :=
  st.realms.find? (fun r => r.name == n)

/-- `db.SaveRealm` on a new realm: appends it. -/
def saveRealm (st : DBState) (r : Realm) : DBState :=
  { st with realms := st.realms ++ [r] }

/-- `realm.CreateAuthorizedApp`: persists the app and returns the generated
key value.  The opaque key value is modelled by the app's (per-run unique)
name. -/
def createAuthorizedApp (st : DBState) (n : String) (t : APIKeyType) : String × DBState :=
  (n, { st with apps := st.apps ++ [{ name := n, apiKeyType := t, apiKey := n, deletedAt := none }] })

/-- `db.FindAuthorizedAppByAPIKey`: first app whose key value matches. -/
def findAuthorizedAppByAPIKey (st : DBState) (k : String) : Option AuthorizedApp :=
  st.apps.find? (fun a => a.apiKey == k)

/-- `db.SaveAuthorizedApp` on an existing app: replaces the stored app with
the matching key value. -/
def saveAuthorizedApp (st : DBState) (app : AuthorizedApp) : DBState :=
  { st with apps := st.apps.map (fun a => if a.apiKey == app.apiKey then app else a) }

/-- Which credential a revocation concerns. -/
inductive KeyKind where
  | admin
  | device
deriving DecidableEq, Repr

/-- Observable events of the background task: the single send on the `ready`
channel, the start of each deferred revocation, and log lines. -/
inductive Event where
  | readySent (err : Option String)
  | revokeBegin (k : KeyKind)
  | logError (msg : String)
  | logInfo (msg : String)
deriving DecidableEq, Repr

/-- The failure plan: outcome of every fallible collaborator call made by
`Setup`, the entropy bytes `rand.Read` yields, the abstracted SHA-256
digest function, and the teardown clock value. -/
structure Plan where
  digest : List Nat → List Nat
  randBuffer : List Nat
  loadFails : Bool
  openFails : Bool
  findRealmErr : Bool
  saveRealmFails : Bool
  randFails : Bool
  createAdminFails : Bool
  createDeviceFails : Bool
  findAdminFails : Bool
  saveAdminFails : Bool
  findDeviceFails : Bool
  saveDeviceFails : Bool
  teardownNow : Nat

/-- `randomString` of pkg/e2e: on entropy failure an error; otherwise the
hex encoding of the digest of the 512-byte random buffer. -/
def randomString (plan : Plan) : Except String String :=
  if plan.randFails then Except.error "failed to generate random"
  else Except.ok (hexString (plan.digest (plan.randBuffer.take 512)))

/-- The suffix `randomString` yields when entropy succeeds. -/
def suffixOf (plan : Plan) : String :=
  hexString (plan.digest (plan.randBuffer.take 512))

/-- Name of the admin credential: `adminKeyName + suffix`. -/
def adminName (plan : Plan) : String := adminKeyName ++ suffixOf plan

/-- Name of the device credential: `deviceKeyName + suffix`. -/
def deviceName (plan : Plan) : String := deviceKeyName ++ suffixOf plan

/-- The admin app as created (not yet soft-deleted). -/
def adminApp0 (plan : Plan) : AuthorizedApp :=
  { name := adminName plan, apiKeyType := APIKeyType.admin
    apiKey := adminName plan, deletedAt := none }

/-- The device app as created (not yet soft-deleted). -/
def deviceApp0 (plan : Plan) : AuthorizedApp :=
  { name := deviceName plan, apiKeyType := APIKeyType.device
    apiKey := deviceName plan, deletedAt := none }

/-- Result of one deferred revocation: database state, emitted events, and
whether the defer panicked. -/
structure CleanupOut where
  st : DBState
  events : List Event
  panicked : Bool
deriving DecidableEq, Repr

/-- The admin-key cleanup defer (src lines 242-253).  A fetch failure is
logged but the code does NOT return: it falls through to
`app.DeletedAt = &now` on the nil app, a nil-pointer dereference, modelled
as `panicked := true`.  A persist failure is logged only, and the final
info line is logged unconditionally, exactly as in the source. -/
def adminCleanup (plan : Plan) (st : DBState) (k : String) : CleanupOut :=
  match (if plan.findAdminFails then none else findAuthorizedAppByAPIKey st k) with
  | none =>
      { st := st
        events := [Event.revokeBegin KeyKind.admin,
                   Event.logError "admin API key cleanup failed"]
        panicked := true }
  | some app =>
      let app2 := { app with deletedAt := some plan.teardownNow }
      if plan.saveAdminFails then
        { st := st
          events := [Event.revokeBegin KeyKind.admin,
                     Event.logError "admin API key disable failed",
                     Event.logInfo "successfully cleaned up e2e test admin key"]
          panicked := false }
      else
        { st := saveAuthorizedApp st app2
          events := [Event.revokeBegin KeyKind.admin,
                     Event.logInfo "successfully cleaned up e2e test admin key"]
          panicked := false }

/-- The device-key cleanup defer (src lines 264-276).  Unlike the admin
defer, a fetch failure logs and returns early, so it never panics. -/
def deviceCleanup (plan : Plan) (st : DBState) (k : String) : CleanupOut :=
  match (if plan.findDeviceFails then none else findAuthorizedAppByAPIKey st k) with
  | none =>
      { st := st
        events := [Event.revokeBegin KeyKind.device,
                   Event.logError "device API key cleanup failed"]
        panicked := false }
  | some app =>
      let app2 := { app with deletedAt := some plan.teardownNow }
      if plan.saveDeviceFails then
        { st := st
          events := [Event.revokeBegin KeyKind.device,
                     Event.logError "device API key disable failed",
                     Event.logInfo "successfully cleaned up e2e test device key"]
          panicked := false }
      else
        { st := saveAuthorizedApp st app2
          events := [Event.revokeBegin KeyKind.device,
                     Event.logInfo "successfully cleaned up e2e test device key"]
          panicked := false }

/-- Outcome of the background task up to (and including) its single send on
the `ready` channel.  On failure, `adminKeyRegistered` records whether the
admin cleanup defer had already been registered (it is registered right
after the admin credential is created, so it is `some adminKey` exactly on
the device-creation failure path). -/
inductive StartOut where
  | fail (msg : String) (st : DBState) (events : List Event) (adminKeyRegistered : Option String)
  | ok (adminKey : String) (deviceKey : String) (st : DBState) (events : List Event)
deriving DecidableEq, Repr

/-- A failure exit of the starting phase: the error is sent on `ready`. -/
def mkFail (msg : String) (st : DBState) (k : Option String) : StartOut :=
  StartOut.fail msg st [Event.readySent (some msg)] k

/-- The find-or-create step for the realm (src lines 212-224): reuse the
realm when present, otherwise create it with the fixed region code; `none`
is a realm-save failure. -/
def realmStep (plan : Plan) (st0 : DBState) : Option DBState :=
  match findRealmByName st0 realmName with
  | some _ => some st0
  | none =>
      if plan.saveRealmFails then none
      else some (saveRealm st0 { name := realmName, regionCode := realmRegionCode })

/-- The background task of `Setup` (src lines 198-281) up to its single
`ready` send, mirroring the Go control flow step by step: config load,
open, realm find-or-create, suffix generation, admin key creation (which
registers the admin cleanup defer), device key creation. -/
def startPhase (plan : Plan) (st0 : DBState) : StartOut :=
  if plan.loadFails then
    mkFail "failed to load database config" st0 none
  else if plan.openFails then
    mkFail "failed to connect to database" st0 none
  else if plan.findRealmErr then
    mkFail "error when finding the realm" st0 none
  else
    match realmStep plan st0 with
    | none => mkFail "failed to create realm" st0 none
    | some st1 =>
        if plan.randFails then
          mkFail "failed to create suffix string for API keys" st1 none
        else if plan.createAdminFails then
          mkFail "error trying to create a new Admin API Key" st1 none
        else
          let p2 := createAuthorizedApp st1 (adminName plan) APIKeyType.admin
          if plan.createDeviceFails then
            mkFail "error trying to create a new Device API Key" p2.2 (some p2.1)
          else
            let p3 := createAuthorizedApp p2.2 (deviceName plan) APIKeyType.device
            StartOut.ok p2.1 p3.1 p3.2 [Event.readySent none]

/-- What `Setup` hands back to its caller, read off the `ready` channel:
the error, and whether a (non-nil) done function was returned. -/
structure SetupReturn where
  err : Option String
  teardown : Bool
deriving DecidableEq, Repr

/-- `Setup`'s caller-visible return (src lines 288-292): the caller blocks
on `<-ready`; a received error yields `(nil, err)`, success yields the
`close(done)` closure and a nil error. -/
def Setup (plan : Plan) (st0 : DBState) : SetupReturn :=
  match startPhase plan st0 with
  | StartOut.fail msg _ _ _ => { err := some msg, teardown := false }
  | StartOut.ok _ _ _ _ => { err := none, teardown := true }

/-- The whole background task, from start until it exits: on a failure path
the already-registered defers run after the `ready` send (only the admin
cleanup can be registered at that point); on the success path, once the
done/cancel signal arrives, the defers run in reverse registration order:
device cleanup first, then admin cleanup. -/
structure RunOut where
  err : Option String
  st : DBState
  events : List Event
  panicked : Bool
deriving DecidableEq, Repr

/-- Full run of the background task (eventual state and full trace). -/
def setupRun (plan : Plan) (st0 : DBState) : RunOut :=
  match startPhase plan st0 with
  | StartOut.fail msg st evs none =>
      { err := some msg, st := st, events := evs, panicked := false }
  | StartOut.fail msg st evs (some aKey) =>
      let c := adminCleanup plan st aKey
      { err := some msg, st := c.st, events := evs ++ c.events, panicked := c.panicked }
  | StartOut.ok aKey dKey st evs =>
      let d := deviceCleanup plan st dKey
      let a := adminCleanup plan d.st aKey
      { err := none, st := a.st, events := evs ++ d.events ++ a.events
        panicked := d.panicked || a.panicked }

/-- The world the caller holds after a successful `Setup`: the `done`
channel's state and the database state at that moment. -/
structure LiveEnv where
  doneClosed : Bool
  st : DBState
deriving DecidableEq, Repr

/-- The returned done function, `func() { close(done) }` (src line 292):
it closes the `done` channel and returns immediately, performing no
database work itself; closing an already-closed channel panics (`none`). -/
def invokeTeardown (env : LiveEnv) : Option LiveEnv :=
  if env.doneClosed then none else some { env with doneClosed := true }

/-- The payloads of the `ready` sends occurring in a trace. -/
def readyEvents (evs : List Event) : List (Option String) :=
  evs.filterMap (fun e => match e with | Event.readySent o => some o | _ => none)

/-- The revocations begun in a trace, in order. -/
def revokeEvents (evs : List Event) : List KeyKind :=
  evs.filterMap (fun e => match e with | Event.revokeBegin k => some k | _ => none)

/-- `config.E2ETestConfig` as the handlers see it: the two live credential
values and the `DoRevise` workflow-variant flag. -/
structure E2ETestConfig where
  verificationAdminAPIKey : String
  verificationAPIServerKey : String
  doRevise : Bool
deriving DecidableEq, Repr

/-- The two registered routes of the trigger server. -/
inductive Route where
  | defaultPath
  | revisePath
deriving DecidableEq, Repr

/-- A handler closure: the snapshot of the config it captured at
registration, tagged with the identity of that snapshot (`snapId` models
the pointer `c := &config` that every request through this handler
shares). -/
structure Handler where
  snapId : Nat
  frozen : E2ETestConfig
deriving DecidableEq, Repr

/-- `defaultHandler` (src lines 119-132): the config is passed by value,
so ONE copy is made when the handler is constructed at route-registration
time; the handler sets `DoRevise = false` on that copy and every request
closure call uses the same copy through the captured pointer. -/
def defaultHandler (snap : Nat) (config : E2ETestConfig) : Handler :=
  { snapId := snap, frozen := { config with doRevise := false } }

/-- `reviseHandler` (src lines 134-147): same shape with `DoRevise = true`. -/
def reviseHandler (snap : Nat) (config : E2ETestConfig) : Handler :=
  { snapId := snap, frozen := { config with doRevise := true } }

/-- One call of `clients.RunEndToEnd`: which route triggered it, the
identity of the config snapshot it was handed, and that snapshot's value. -/
structure Invocation where
  route : Route
  snapId : Nat
  cfg : E2ETestConfig
deriving DecidableEq, Repr

/-- The router after `realMain` registered both routes (src lines
105-106): two handlers, each holding its own registration-time copy. -/
structure RouterState where
  defaultH : Handler
  reviseH : Handler
deriving DecidableEq, Repr

/-- Route registration: each handler constructor receives the shared
config by value, making exactly one copy per route. -/
def registerRoutes (config : E2ETestConfig) : RouterState :=
  { defaultH := defaultHandler 0 config, reviseH := reviseHandler 1 config }

/-- Serving one request: the handler closure runs `RunEndToEnd` with the
snapshot it captured at registration; the router is not modified. -/
def serveOne (rs : RouterState) (r : Route) : Invocation :=
  match r with
  | Route.defaultPath => { route := r, snapId := rs.defaultH.snapId, cfg := rs.defaultH.frozen }
  | Route.revisePath => { route := r, snapId := rs.reviseH.snapId, cfg := rs.reviseH.frozen }

/-- Serving a sequence of requests (any interleaving of the two routes). -/
def serveAll (rs : RouterState) (reqs : List Route) : List Invocation :=
  reqs.map (serveOne rs)

/-- All provisioning-phase collaborator calls succeed. -/
def startFlagsOk (p : Plan) : Bool :=
  !p.loadFails && !p.openFails && !p.findRealmErr && !p.saveRealmFails &&
  !p.randFails && !p.createAdminFails && !p.createDeviceFails

/-- All teardown-phase collaborator calls succeed. -/
def teardownFlagsOk (p : Plan) : Bool :=
  !p.findAdminFails && !p.saveAdminFails && !p.findDeviceFails && !p.saveDeviceFails

/-- The admin app after its soft-delete. -/
def adminAppDel (plan : Plan) : AuthorizedApp :=
  { adminApp0 plan with deletedAt := some plan.teardownNow }

/-- The device app after its soft-delete. -/
def deviceAppDel (plan : Plan) : AuthorizedApp :=
  { deviceApp0 plan with deletedAt := some plan.teardownNow }

/-- A plan on which every collaborator call succeeds; the digest function
stands in for SHA-256 at a fixed input. -/
def noFailurePlan : Plan :=
  { digest := fun _ => List.replicate 32 0
    randBuffer := List.replicate 512 0
    loadFails := false, openFails := false, findRealmErr := false, saveRealmFails := false
    randFails := false, createAdminFails := false, createDeviceFails := false
    findAdminFails := false, saveAdminFails := false, findDeviceFails := false
    saveDeviceFails := false, teardownNow := 7 }

/-- An initially empty database. -/
def emptyDB : DBState := { realms := [], apps := [] }

/-- Character predicate for Go's lowercase `%x` output. -/
def isLowerHexDigit (c : Char) : Bool :=
  (48 ≤ c.toNat && c.toNat ≤ 57) || (97 ≤ c.toNat && c.toNat ≤ 102)

theorem hexChars_length (bs : List Nat) : (hexChars bs).length = 2 * bs.length := by
  induction bs with
  | nil => simp [hexChars]
  | cons b bs ih => simp [hexChars, ih]; omega

theorem hexDigitChar_lowerHex (n : Nat) (h : n < 16) : isLowerHexDigit (hexDigitChar n) = true := by
  interval_cases n <;> decide

theorem hexChars_lowerHex (bs : List Nat) (c : Char) (hc : c ∈ hexChars bs) :
    isLowerHexDigit c = true := by
  induction bs with
  | nil => simp [hexChars] at hc
  | cons b bs ih =>
    simp only [hexChars, List.mem_cons] at hc
    rcases hc with h | h | h
    · exact h ▸ hexDigitChar_lowerHex _ (by omega)
    · exact h ▸ hexDigitChar_lowerHex _ (by omega)
    · exact ih h

theorem adminName_ne_deviceName (plan : Plan) : adminName plan ≠ deviceName plan := by
  intro h
  have h2 := congrArg String.length h
  simp only [adminName, deviceName, String.length_append] at h2
  have ha : adminKeyName.length = 14 := by decide
  have hd : deviceKeyName.length = 15 := by decide
  omega

theorem find?_apiKey_skip (l1 l2 : List AuthorizedApp) (k : String)
    (h : ∀ a ∈ l1, a.apiKey ≠ k) :
    (l1 ++ l2).find? (fun a => a.apiKey == k) = l2.find? (fun a => a.apiKey == k) := by
  induction l1 with
  | nil => rfl
  | cons a t ih =>
    have hne : (a.apiKey == k) = false :=
      beq_eq_false_iff_ne.mpr (h a (List.mem_cons_self a t))
    simp only [List.cons_append, List.find?_cons, hne]
    exact ih (fun x hx => h x (List.mem_cons_of_mem _ hx))

theorem map_save_skip (l : List AuthorizedApp) (app : AuthorizedApp)
    (h : ∀ a ∈ l, a.apiKey ≠ app.apiKey) :
    l.map (fun a => if a.apiKey == app.apiKey then app else a) = l := by
  induction l with
  | nil => rfl
  | cons a t ih =>
    have hne : (a.apiKey == app.apiKey) = false :=
      beq_eq_false_iff_ne.mpr (h a (List.mem_cons_self a t))
    simp only [List.map_cons, hne, Bool.false_eq_true, if_false]
    rw [ih (fun x hx => h x (List.mem_cons_of_mem _ hx))]

theorem readyEvents_append (l1 l2 : List Event) :
    readyEvents (l1 ++ l2) = readyEvents l1 ++ readyEvents l2 := by
  simp [readyEvents, List.filterMap_append]

theorem revokeEvents_append (l1 l2 : List Event) :
    revokeEvents (l1 ++ l2) = revokeEvents l1 ++ revokeEvents l2 := by
  simp [revokeEvents, List.filterMap_append]

theorem readyEvents_ready (o : Option String) : readyEvents [Event.readySent o] = [o] := rfl

theorem revokeEvents_ready (o : Option String) : revokeEvents [Event.readySent o] = [] := rfl

theorem readyEvents_cons_ready (o : Option String) (l : List Event) :
    readyEvents (Event.readySent o :: l) = o :: readyEvents l := rfl

theorem revokeEvents_cons_ready (o : Option String) (l : List Event) :
    revokeEvents (Event.readySent o :: l) = revokeEvents l := rfl

theorem adminCleanup_events (plan : Plan) (st : DBState) (k : String) :
    readyEvents (adminCleanup plan st k).events = []
    ∧ revokeEvents (adminCleanup plan st k).events = [KeyKind.admin] := by
  unfold adminCleanup
  repeat' split
  all_goals simp [readyEvents, revokeEvents]

theorem deviceCleanup_events (plan : Plan) (st : DBState) (k : String) :
    readyEvents (deviceCleanup plan st k).events = []
    ∧ revokeEvents (deviceCleanup plan st k).events = [KeyKind.device] := by
  unfold deviceCleanup
  repeat' split
  all_goals simp [readyEvents, revokeEvents]

theorem realmStep_apps (plan : Plan) (st0 st1 : DBState) (h : realmStep plan st0 = some st1) :
    st1.apps = st0.apps := by
  unfold realmStep at h
  repeat' split at h
  all_goals cases h
  all_goals simp [saveRealm]

theorem startPhase_fail_inv (plan : Plan) (st0 : DBState) (msg : String) (st : DBState)
    (evs : List Event) (reg : Option String)
    (h : startPhase plan st0 = StartOut.fail msg st evs reg) :
    evs = [Event.readySent (some msg)]
    ∧ (reg = none → st.apps = st0.apps)
    ∧ (∀ k, reg = some k → k = adminName plan ∧ st.apps = st0.apps ++ [adminApp0 plan]) := by
  unfold startPhase mkFail at h
  cases hrs : realmStep plan st0 with
  | none =>
      rw [hrs] at h
      repeat' split at h
      all_goals try cases h
      all_goals simp_all
  | some st1 =>
      rw [hrs] at h
      have hap := realmStep_apps plan st0 st1 hrs
      repeat' split at h
      all_goals try cases h
      all_goals simp_all [createAuthorizedApp, adminApp0]

theorem startPhase_ok_inv (plan : Plan) (st0 : DBState) (a d : String) (st : DBState)
    (evs : List Event) (h : startPhase plan st0 = StartOut.ok a d st evs) :
    a = adminName plan ∧ d = deviceName plan ∧ evs = [Event.readySent none]
    ∧ st.apps = st0.apps ++ [adminApp0 plan, deviceApp0 plan] := by
  unfold startPhase mkFail at h
  cases hrs : realmStep plan st0 with
  | none =>
      rw [hrs] at h
      repeat' split at h
      all_goals try cases h
      all_goals simp_all
  | some st1 =>
      rw [hrs] at h
      have hap := realmStep_apps plan st0 st1 hrs
      repeat' split at h
      all_goals try cases h
      all_goals simp_all [createAuthorizedApp, adminApp0, deviceApp0]

theorem realmStep_isSome (plan : Plan) (st0 : DBState) (h : plan.saveRealmFails = false) :
    ∃ st1, realmStep plan st0 = some st1 := by
  unfold realmStep
  cases findRealmByName st0 realmName <;> simp [h]

theorem startPhase_of_flags (plan : Plan) (st0 : DBState) (hok : startFlagsOk plan = true) :
    ∃ st, startPhase plan st0 =
      StartOut.ok (adminName plan) (deviceName plan) st [Event.readySent none]
      ∧ st.apps = st0.apps ++ [adminApp0 plan, deviceApp0 plan] := by
  simp only [startFlagsOk, Bool.and_eq_true, Bool.not_eq_true'] at hok
  obtain ⟨⟨⟨⟨⟨⟨h1, h2⟩, h3⟩, h4⟩, h5⟩, h6⟩, h7⟩ := hok
  obtain ⟨st1, hrs⟩ := realmStep_isSome plan st0 h4
  cases hsp : startPhase plan st0 with
  | fail msg st evs reg =>
      exfalso
      unfold startPhase mkFail at hsp
      simp [h1, h2, h3, h5, h6, h7, hrs, createAuthorizedApp] at hsp
  | ok a d st evs =>
      obtain ⟨ha, hd, hevs, happ⟩ := startPhase_ok_inv plan st0 a d st evs hsp
      exact ⟨st, by rw [ha, hd, hevs], happ⟩

theorem startPhase_rand_fail (plan : Plan) (st0 : DBState) (h : plan.randFails = true) :
    ∃ msg st, startPhase plan st0 = StartOut.fail msg st [Event.readySent (some msg)] none := by
  unfold startPhase mkFail
  repeat' split
  all_goals simp_all

end E2E

namespace E2E

/-- C1: `Setup` blocks its caller until the background task reports
readiness or failure (the caller's result is exactly the payload of the
unique send on the one-shot `ready` signal), and returns exactly one of two
shapes: on any provisioning failure a non-nil error with a nil teardown
function, and on success a nil error with a non-nil teardown function that
only signals the `done` channel, itself performing no teardown work and not
blocking on teardown completion. -/
theorem setup_blocks_and_returns_two_shapes (plan : Plan) (st0 : DBState) :
    ((Setup plan st0).err = none ↔ (Setup plan st0).teardown = true)
    ∧ readyEvents (setupRun plan st0).events = [(Setup plan st0).err]
    ∧ (∀ st : DBState, invokeTeardown { doneClosed := false, st := st } =
        some { doneClosed := true, st := st }) := by
  have hmain : ((Setup plan st0).err = none ↔ (Setup plan st0).teardown = true)
      ∧ readyEvents (setupRun plan st0).events = [(Setup plan st0).err] := by
    cases hsp : startPhase plan st0 with
    | fail msg st evs reg =>
        obtain ⟨hevs, -, -⟩ := startPhase_fail_inv plan st0 msg st evs reg hsp
        cases reg with
        | none => simp [Setup, setupRun, hsp, hevs, readyEvents_ready]
        | some k =>
            have hc := (adminCleanup_events plan st k).1
            simp [Setup, setupRun, hsp, hevs, readyEvents_append, hc, readyEvents_ready, readyEvents_cons_ready]
    | ok a d st evs =>
        obtain ⟨-, -, hevs, -⟩ := startPhase_ok_inv plan st0 a d st evs hsp
        have hd := (deviceCleanup_events plan st d).1
        have ha := (adminCleanup_events plan (deviceCleanup plan st d).st a).1
        simp [Setup, setupRun, hsp, hevs, readyEvents_append, hd, ha, readyEvents_ready, readyEvents_cons_ready]
  exact ⟨hmain.1, hmain.2, fun st => by simp [invokeTeardown]⟩

/-- C1 witness: the contract evaluated on an all-success plan over an empty
database. -/
theorem setup_blocks_and_returns_two_shapes_witness :
    readyEvents (setupRun noFailurePlan emptyDB).events = [(Setup noFailurePlan emptyDB).err] :=
  (setup_blocks_and_returns_two_shapes noFailurePlan emptyDB).2.1

/-- C4 counterexample: on a device-key-creation failure the background task
reports the error over the readiness signal and then the already-registered
admin cleanup defer runs, so a Starting-phase failure does not exit without
performing any revocation, contrary to the claim. -/
theorem failure_path_revocation_cex :
    ((setupRun { noFailurePlan with createDeviceFails := true } emptyDB).err.isSome = true)
    ∧ revokeEvents (setupRun { noFailurePlan with createDeviceFails := true } emptyDB).events
        = [KeyKind.admin] := by
  decide

/-- C4 amended: readiness is reported exactly once on every path, as the
first event of the background task; no revocation runs on failures before
the admin key exists; but after a device-key-creation failure the
already-registered admin revocation does run (after the failure report);
on success both revocations run, device first. -/
theorem readiness_once_revocation_gating (plan : Plan) (st0 : DBState) :
    readyEvents (setupRun plan st0).events = [(setupRun plan st0).err]
    ∧ (setupRun plan st0).events.head? = some (Event.readySent (setupRun plan st0).err)
    ∧ (∀ msg st evs, startPhase plan st0 = StartOut.fail msg st evs none →
        revokeEvents (setupRun plan st0).events = [])
    ∧ (∀ msg st evs k, startPhase plan st0 = StartOut.fail msg st evs (some k) →
        revokeEvents (setupRun plan st0).events = [KeyKind.admin])
    ∧ (∀ a d st evs, startPhase plan st0 = StartOut.ok a d st evs →
        revokeEvents (setupRun plan st0).events = [KeyKind.device, KeyKind.admin]) := by
  cases hsp : startPhase plan st0 with
  | fail msg st evs reg =>
      obtain ⟨hevs, -, -⟩ := startPhase_fail_inv plan st0 msg st evs reg hsp
      cases reg with
      | none =>
          refine ⟨?_, ?_, fun m s e h => ?_, fun m s e k h => ?_, fun a2 d2 s e h => ?_⟩
          · simp [setupRun, hsp, hevs, readyEvents_ready]
          · simp [setupRun, hsp, hevs]
          · simp [setupRun, hsp, hevs, revokeEvents_ready]
          · simp at h
          · simp at h
      | some k0 =>
          have hc := (adminCleanup_events plan st k0).2
          have hr := (adminCleanup_events plan st k0).1
          refine ⟨?_, ?_, fun m s e h => ?_, fun m s e k h => ?_, fun a2 d2 s e h => ?_⟩
          · simp [setupRun, hsp, hevs, readyEvents_append, hr, readyEvents_ready, readyEvents_cons_ready]
          · simp [setupRun, hsp, hevs]
          · simp at h
          · simp [setupRun, hsp, hevs, revokeEvents_append, hc, revokeEvents_ready, revokeEvents_cons_ready]
          · simp at h
  | ok a d st evs =>
      obtain ⟨-, -, hevs, -⟩ := startPhase_ok_inv plan st0 a d st evs hsp
      have hcd := (deviceCleanup_events plan st d).2
      have hca := (adminCleanup_events plan (deviceCleanup plan st d).st a).2
      have hrd := (deviceCleanup_events plan st d).1
      have hra := (adminCleanup_events plan (deviceCleanup plan st d).st a).1
      refine ⟨?_, ?_, fun m s e h => ?_, fun m s e k h => ?_, fun a2 d2 s e h => ?_⟩
      · simp [setupRun, hsp, hevs, readyEvents_append, hrd, hra, readyEvents_ready, readyEvents_cons_ready]
      · simp [setupRun, hsp, hevs]
      · simp at h
      · simp at h
      · simp [setupRun, hsp, hevs, revokeEvents_append, hcd, hca, revokeEvents_ready, revokeEvents_cons_ready]

/-- C4 amended witness: the gating evaluated on an all-success plan. -/
theorem readiness_once_revocation_gating_witness :
    revokeEvents (setupRun noFailurePlan emptyDB).events = [KeyKind.device, KeyKind.admin] := by
  obtain ⟨st, hsp, -⟩ := startPhase_of_flags noFailurePlan emptyDB (by decide)
  exact (readiness_once_revocation_gating noFailurePlan emptyDB).2.2.2.2
    (adminName noFailurePlan) (deviceName noFailurePlan) st [Event.readySent none] hsp

end E2E

namespace E2E

theorem beq_name_false {s t : String} (h : s ≠ t) : (s == t) = false :=
  beq_eq_false_iff_ne.mpr h

/-- Computation of the admin cleanup defer when the fetch and persist
succeed and the admin app sits right after a key-fresh prefix. -/
theorem adminCleanup_computes (plan : Plan) (stX : DBState) (l1 rest : List AuthorizedApp)
    (hfa : plan.findAdminFails = false) (hsa : plan.saveAdminFails = false)
    (happs : stX.apps = l1 ++ adminApp0 plan :: rest)
    (hfresh1 : ∀ x ∈ l1, x.apiKey ≠ adminName plan)
    (hrest : ∀ x ∈ rest, x.apiKey ≠ adminName plan) :
    (adminCleanup plan stX (adminName plan)).st.apps = l1 ++ adminAppDel plan :: rest
    ∧ (adminCleanup plan stX (adminName plan)).events =
        [Event.revokeBegin KeyKind.admin,
         Event.logInfo "successfully cleaned up e2e test admin key"]
    ∧ (adminCleanup plan stX (adminName plan)).panicked = false := by
  have hfind : findAuthorizedAppByAPIKey stX (adminName plan) = some (adminApp0 plan) := by
    unfold findAuthorizedAppByAPIKey
    rw [happs, find?_apiKey_skip l1 _ _ hfresh1]
    simp [List.find?_cons, adminApp0]
  have hmap : (l1 ++ adminApp0 plan :: rest).map
      (fun a => if a.apiKey == (adminAppDel plan).apiKey then adminAppDel plan else a)
      = l1 ++ adminAppDel plan :: rest := by
    have hkey : (adminAppDel plan).apiKey = adminName plan := rfl
    rw [List.map_append]
    rw [map_save_skip l1 _ (fun x hx => by rw [hkey]; exact hfresh1 x hx)]
    simp only [List.map_cons]
    rw [map_save_skip rest _ (fun x hx => by rw [hkey]; exact hrest x hx)]
    simp [adminApp0, adminAppDel]
  unfold adminCleanup
  rw [hfa]
  simp only [Bool.false_eq_true, if_false, hfind]
  rw [hsa]
  refine ⟨?_, by simp [adminAppDel, adminApp0], by simp⟩
  simp only [Bool.false_eq_true, if_false]
  show (saveAuthorizedApp stX _).apps = _
  unfold saveAuthorizedApp
  have hdel : { adminApp0 plan with deletedAt := some plan.teardownNow } = adminAppDel plan := rfl
  rw [hdel] at *
  simp only [happs]
  exact hmap

/-- Computation of the device cleanup defer when the fetch and persist
succeed and the device app is the last app after a key-fresh prefix. -/
theorem deviceCleanup_computes (plan : Plan) (stX : DBState) (l1 : List AuthorizedApp)
    (hfd : plan.findDeviceFails = false) (hsd : plan.saveDeviceFails = false)
    (happs : stX.apps = l1 ++ [adminApp0 plan, deviceApp0 plan])
    (hfresh1 : ∀ x ∈ l1, x.apiKey ≠ deviceName plan) :
    (deviceCleanup plan stX (deviceName plan)).st.apps
        = l1 ++ [adminApp0 plan, deviceAppDel plan]
    ∧ (deviceCleanup plan stX (deviceName plan)).events =
        [Event.revokeBegin KeyKind.device,
         Event.logInfo "successfully cleaned up e2e test device key"]
    ∧ (deviceCleanup plan stX (deviceName plan)).panicked = false := by
  have hadm : ((adminApp0 plan).apiKey == deviceName plan) = false :=
    beq_name_false (by simpa [adminApp0] using adminName_ne_deviceName plan)
  have hfind : findAuthorizedAppByAPIKey stX (deviceName plan) = some (deviceApp0 plan) := by
    unfold findAuthorizedAppByAPIKey
    rw [happs, find?_apiKey_skip l1 _ _ hfresh1]
    simp [List.find?_cons, hadm, deviceApp0]
  have hkey : (deviceAppDel plan).apiKey = deviceName plan := rfl
  have hmap : (l1 ++ [adminApp0 plan, deviceApp0 plan]).map
      (fun a => if a.apiKey == (deviceAppDel plan).apiKey then deviceAppDel plan else a)
      = l1 ++ [adminApp0 plan, deviceAppDel plan] := by
    rw [List.map_append]
    rw [map_save_skip l1 _ (fun x hx => by rw [hkey]; exact hfresh1 x hx)]
    simp only [List.map_cons, List.map_nil, hkey, hadm, Bool.false_eq_true, if_false]
    simp [deviceApp0, deviceAppDel]
  unfold deviceCleanup
  rw [hfd]
  simp only [Bool.false_eq_true, if_false, hfind]
  rw [hsd]
  refine ⟨?_, by simp [deviceAppDel, deviceApp0], by simp⟩
  simp only [Bool.false_eq_true, if_false]
  show (saveAuthorizedApp stX _).apps = _
  unfold saveAuthorizedApp
  have hdel : { deviceApp0 plan with deletedAt := some plan.teardownNow } = deviceAppDel plan := rfl
  rw [hdel]
  simp only [happs]
  exact hmap

end E2E

namespace E2E

/-- C2: for every setup that succeeded (and whose teardown collaborator
calls succeed), teardown revokes both credentials by soft-delete, the
device revocation running before the admin revocation (reverse of creation
order); each revocation re-fetches its credential by key value, stamps the
deletion timestamp with the current time and persists it, so afterwards
both stored credentials carry the (non-nil) deletion timestamp. -/
theorem teardown_soft_deletes_both (plan : Plan) (st0 : DBState)
    (hok : startFlagsOk plan = true) (htd : teardownFlagsOk plan = true)
    (hfresh : ∀ x ∈ st0.apps, x.apiKey ≠ adminName plan ∧ x.apiKey ≠ deviceName plan) :
    (setupRun plan st0).err = none
    ∧ revokeEvents (setupRun plan st0).events = [KeyKind.device, KeyKind.admin]
    ∧ (setupRun plan st0).st.apps = st0.apps ++ [adminAppDel plan, deviceAppDel plan]
    ∧ (adminAppDel plan).deletedAt = some plan.teardownNow
    ∧ (deviceAppDel plan).deletedAt = some plan.teardownNow
    ∧ (setupRun plan st0).panicked = false := by
  simp only [teardownFlagsOk, Bool.and_eq_true, Bool.not_eq_true'] at htd
  obtain ⟨⟨⟨f1, f2⟩, f3⟩, f4⟩ := htd
  obtain ⟨st, hsp, happ⟩ := startPhase_of_flags plan st0 hok
  obtain ⟨hd1, hd2, hd3⟩ := deviceCleanup_computes plan st st0.apps f3 f4 happ
      (fun x hx => (hfresh x hx).2)
  have happ2 : (deviceCleanup plan st (deviceName plan)).st.apps
      = st0.apps ++ adminApp0 plan :: [deviceAppDel plan] := hd1
  obtain ⟨ha1, ha2, ha3⟩ := adminCleanup_computes plan
      (deviceCleanup plan st (deviceName plan)).st st0.apps [deviceAppDel plan] f1 f2 happ2
      (fun x hx => (hfresh x hx).1)
      (fun x hx => by
        simp only [List.mem_singleton] at hx
        subst hx
        show deviceName plan ≠ adminName plan
        exact (adminName_ne_deviceName plan).symm)
  refine ⟨?_, ?_, ?_, rfl, rfl, ?_⟩
  · simp [setupRun, hsp]
  · simp [setupRun, hsp, hd2, ha2, revokeEvents]
  · simp only [setupRun, hsp]
    exact ha1
  · simp [setupRun, hsp, hd3, ha3]

/-- C2 witness: both credentials are soft-deleted after a run on an
all-success plan over the empty database. -/
theorem teardown_soft_deletes_both_witness :
    (setupRun noFailurePlan emptyDB).st.apps
      = emptyDB.apps ++ [adminAppDel noFailurePlan, deviceAppDel noFailurePlan] :=
  (teardown_soft_deletes_both noFailurePlan emptyDB rfl rfl
      (fun x hx => absurd hx (by simp [emptyDB]))).2.2.1

/-- C3 (evaluating the code at the failing input): during teardown of a
successful setup, a failed admin-credential re-fetch is not merely logged:
the admin cleanup defer continues into `app.DeletedAt = &now` on the nil
app and panics the background task; by contrast the device defer's fetch
failure and either persist failure are logged only, and the
device revocation (which runs first) is still attempted. -/
theorem admin_fetch_failure_panics_teardown :
    ((setupRun { noFailurePlan with findAdminFails := true } emptyDB).err = none
      ∧ (setupRun { noFailurePlan with findAdminFails := true } emptyDB).panicked = true
      ∧ revokeEvents (setupRun { noFailurePlan with findAdminFails := true } emptyDB).events
          = [KeyKind.device, KeyKind.admin])
    ∧ (setupRun { noFailurePlan with findDeviceFails := true } emptyDB).panicked = false
    ∧ (setupRun { noFailurePlan with saveAdminFails := true } emptyDB).panicked = false
    ∧ (setupRun { noFailurePlan with saveDeviceFails := true } emptyDB).panicked = false := by
  decide

/-- C7 counterexample: when device-key creation fails, Setup returns an
error, yet a credential created by that same call (the admin key) exists in
the database afterward, so the database state is not unchanged on error. -/
theorem state_unchanged_on_error_cex :
    (Setup { noFailurePlan with createDeviceFails := true } emptyDB).err.isSome = true
    ∧ (setupRun { noFailurePlan with createDeviceFails := true } emptyDB).st.apps ≠ [] := by
  decide

/-- C7 amended: if provisioning fails before the admin key is created
(database config load, open, realm lookup/save, suffix generation, or
admin key creation), Setup returns an error and the stored apps are
unchanged; if device-key creation fails, Setup returns an error but the
admin credential created by the call remains in the database, soft-deleted
when its cleanup fetch and persist succeed. -/
theorem provisioning_failure_db_effect (plan : Plan) (st0 : DBState)
    (hfresh : ∀ x ∈ st0.apps, x.apiKey ≠ adminName plan) :
    (∀ msg st evs, startPhase plan st0 = StartOut.fail msg st evs none →
        (setupRun plan st0).err = some msg ∧ (setupRun plan st0).st.apps = st0.apps)
    ∧ (plan.findAdminFails = false → plan.saveAdminFails = false →
       ∀ msg st evs k, startPhase plan st0 = StartOut.fail msg st evs (some k) →
        (setupRun plan st0).err = some msg
        ∧ (setupRun plan st0).st.apps = st0.apps ++ [adminAppDel plan]) := by
  constructor
  · intro msg st evs h
    obtain ⟨hevs, hnone, -⟩ := startPhase_fail_inv plan st0 msg st evs none h
    constructor
    · simp [setupRun, h]
    · simp only [setupRun, h]
      exact hnone rfl
  · intro f1 f2 msg st evs k h
    obtain ⟨hevs, -, hsome⟩ := startPhase_fail_inv plan st0 msg st evs (some k) h
    obtain ⟨hk, happs⟩ := hsome k rfl
    subst hk
    obtain ⟨ha1, ha2, ha3⟩ := adminCleanup_computes plan st st0.apps [] f1 f2
        (by simpa using happs) hfresh (fun x hx => by simp at hx)
    constructor
    · simp [setupRun, h]
    · simp only [setupRun, h]
      simpa using ha1

/-- C7 amended witness: the device-creation-failure path evaluated on a
concrete plan over the empty database. -/
theorem provisioning_failure_db_effect_witness :
    (setupRun { noFailurePlan with createDeviceFails := true } emptyDB).st.apps
      = emptyDB.apps ++ [adminAppDel { noFailurePlan with createDeviceFails := true }] :=
  ((provisioning_failure_db_effect { noFailurePlan with createDeviceFails := true } emptyDB
      (fun x hx => absurd hx (by simp [emptyDB]))).2 rfl rfl
      "error trying to create a new Device API Key"
      { realms := [{ name := realmName, regionCode := realmRegionCode }]
        apps := [adminApp0 { noFailurePlan with createDeviceFails := true }] }
      [Event.readySent (some "error trying to create a new Device API Key")]
      (adminName { noFailurePlan with createDeviceFails := true }) rfl).2

end E2E

namespace E2E

theorem length_hexString (bs : List Nat) : (hexString bs).length = 2 * bs.length := by
  show (hexChars bs).length = 2 * bs.length
  exact hexChars_length bs

/-- C5: every successful setup creates exactly two credentials in the
realm: one of type admin named `e2e-admin-key.` + suffix and one of type
device named `e2e-device-key.` + suffix, where the suffix is the
64-character lowercase-hex encoding of the digest (SHA-256, abstracted as
the plan's 32-byte digest function) of the 512-byte random buffer;
entropy-source failure aborts setup with an error. -/
theorem setup_creates_admin_and_device_keys (plan : Plan) (st0 : DBState)
    (hok : startFlagsOk plan = true)
    (hdig : (plan.digest (plan.randBuffer.take 512)).length = 32) :
    (∃ st, startPhase plan st0 =
        StartOut.ok (adminName plan) (deviceName plan) st [Event.readySent none]
        ∧ st.apps = st0.apps ++ [adminApp0 plan, deviceApp0 plan])
    ∧ (adminApp0 plan).apiKeyType = APIKeyType.admin
    ∧ (deviceApp0 plan).apiKeyType = APIKeyType.device
    ∧ (adminApp0 plan).name = adminKeyName ++ suffixOf plan
    ∧ (deviceApp0 plan).name = deviceKeyName ++ suffixOf plan
    ∧ (suffixOf plan).length = 64
    ∧ (∀ c ∈ (suffixOf plan).data, isLowerHexDigit c = true)
    ∧ (∀ q : Plan, q.randFails = true →
        (Setup q st0).err.isSome = true ∧ (Setup q st0).teardown = false) := by
  refine ⟨startPhase_of_flags plan st0 hok, rfl, rfl, rfl, rfl, ?_, ?_, ?_⟩
  · show (hexString (plan.digest (plan.randBuffer.take 512))).length = 64
    rw [length_hexString, hdig]
  · intro c hc
    exact hexChars_lowerHex _ c hc
  · intro q hq
    obtain ⟨msg, st, h⟩ := startPhase_rand_fail q st0 hq
    simp [Setup, h]

/-- C5 witness: the key-creation shape evaluated on an all-success plan
with a concrete 32-byte digest function. -/
theorem setup_creates_admin_and_device_keys_witness :
    (suffixOf noFailurePlan).length = 64 :=
  (setup_creates_admin_and_device_keys noFailurePlan emptyDB rfl (by decide)).2.2.2.2.2.1

/-- C6: every request on `/default` invokes the end-to-end workflow with a
configuration whose revise flag is false, and every request on `/revise`
with revise true, regardless of invocation order or interleaving; the
configuration a route uses is the value frozen into the handler at
route-registration time. -/
theorem route_flag_matches_route (config : E2ETestConfig) (reqs : List Route) (inv : Invocation)
    (h : inv ∈ serveAll (registerRoutes config) reqs) :
    (inv.route = Route.defaultPath →
        inv.cfg.doRevise = false ∧ inv.cfg = { config with doRevise := false })
    ∧ (inv.route = Route.revisePath →
        inv.cfg.doRevise = true ∧ inv.cfg = { config with doRevise := true }) := by
  simp only [serveAll, List.mem_map] at h
  obtain ⟨r, hr, rfl⟩ := h
  cases r <;> simp [serveOne, registerRoutes, defaultHandler, reviseHandler]

/-- C6 witness: an interleaved request sequence evaluated concretely. -/
theorem route_flag_matches_route_witness :
    (serveOne (registerRoutes
        { verificationAdminAPIKey := "a", verificationAPIServerKey := "d", doRevise := true })
      Route.defaultPath).cfg.doRevise = false :=
  ((route_flag_matches_route
      { verificationAdminAPIKey := "a", verificationAPIServerKey := "d", doRevise := true }
      [Route.defaultPath, Route.revisePath, Route.defaultPath]
      (serveOne (registerRoutes
        { verificationAdminAPIKey := "a", verificationAPIServerKey := "d", doRevise := true })
        Route.defaultPath)
      (by decide)).1 rfl).1

/-- C8 counterexample: the done function returned by a successful Setup is
`func() { close(done) }`; once the signal is closed, invoking it again
closes an already-closed channel, which panics the process (modelled as
`none`), so a second invocation does crash. -/
theorem teardown_reinvocation_cex :
    invokeTeardown { doneClosed := false, st := emptyDB } =
      some { doneClosed := true, st := emptyDB }
    ∧ invokeTeardown { doneClosed := true, st := emptyDB } = none := by
  decide

/-- C8 amended: the public teardown handle must be invoked exactly once:
the first invocation closes the done signal and returns; a second
invocation closes an already-closed channel and panics the process (the
handle is not idempotent). -/
theorem teardown_single_use (env : LiveEnv) (h : env.doneClosed = false) :
    invokeTeardown env = some { env with doneClosed := true }
    ∧ invokeTeardown { env with doneClosed := true } = none := by
  simp [invokeTeardown, h]

/-- C8 amended witness. -/
theorem teardown_single_use_witness :
    invokeTeardown { doneClosed := false, st := emptyDB } =
      some { doneClosed := true, st := emptyDB } :=
  (teardown_single_use { doneClosed := false, st := emptyDB } rfl).1

/-- C9 counterexample: the Run Configuration is NOT copied per HTTP
request: two distinct requests to the same route are served with the same
registration-time snapshot (same captured pointer), refuting that each
request operates on its own independent copy. -/
theorem config_copied_per_request_cex :
    ¬ (∀ (config : E2ETestConfig) (reqs : List Route) (i j : Nat)
        (hi : i < (serveAll (registerRoutes config) reqs).length)
        (hj : j < (serveAll (registerRoutes config) reqs).length),
        i ≠ j →
        ((serveAll (registerRoutes config) reqs).get ⟨i, hi⟩).snapId ≠
          ((serveAll (registerRoutes config) reqs).get ⟨j, hj⟩).snapId) := by
  intro h
  exact h { verificationAdminAPIKey := "", verificationAPIServerKey := "", doRevise := false }
      [Route.defaultPath, Route.defaultPath] 0 1 (by decide) (by decide) (by decide) rfl

/-- C9 amended: the shared Run Configuration is copied once per route at
registration time; every request to a route is served with that route's
single snapshot, which is never mutated after construction, and the two
routes' snapshots are distinct, so no handler mutates the shared value or
another route's snapshot. -/
theorem config_copied_per_route (config : E2ETestConfig) (reqs : List Route) (inv : Invocation)
    (h : inv ∈ serveAll (registerRoutes config) reqs) :
    (inv.route = Route.defaultPath →
        inv.snapId = (registerRoutes config).defaultH.snapId
        ∧ inv.cfg = (registerRoutes config).defaultH.frozen)
    ∧ (inv.route = Route.revisePath →
        inv.snapId = (registerRoutes config).reviseH.snapId
        ∧ inv.cfg = (registerRoutes config).reviseH.frozen)
    ∧ (registerRoutes config).defaultH.snapId ≠ (registerRoutes config).reviseH.snapId := by
  simp only [serveAll, List.mem_map] at h
  obtain ⟨r, hr, rfl⟩ := h
  cases r <;> simp [serveOne, registerRoutes, defaultHandler, reviseHandler]

/-- C9 amended witness. -/
theorem config_copied_per_route_witness :
    (serveOne (registerRoutes
        { verificationAdminAPIKey := "x", verificationAPIServerKey := "y", doRevise := false })
      Route.revisePath).snapId =
      (registerRoutes
        { verificationAdminAPIKey := "x", verificationAPIServerKey := "y", doRevise := false }).reviseH.snapId :=
  ((config_copied_per_route
      { verificationAdminAPIKey := "x", verificationAPIServerKey := "y", doRevise := false }
      [Route.revisePath]
      (serveOne (registerRoutes
        { verificationAdminAPIKey := "x", verificationAPIServerKey := "y", doRevise := false })
        Route.revisePath)
      (by decide)).2.1 rfl).1

/-- C10: within a single successful setup one suffix is generated and used
for both credential names: the admin name is `e2e-admin-key.` + s and the
device name is `e2e-device-key.` + s for the same s, so the admin name
with its 14-character prefix removed equals the device name with its
15-character prefix removed. -/
theorem credential_names_share_suffix (plan : Plan) (st0 : DBState)
    (a d : String) (st : DBState) (evs : List Event)
    (h : startPhase plan st0 = StartOut.ok a d st evs) :
    ∃ s, a = adminKeyName ++ s ∧ d = deviceKeyName ++ s
      ∧ a.data.drop 14 = s.data ∧ d.data.drop 15 = s.data := by
  obtain ⟨ha, hd, -, -⟩ := startPhase_ok_inv plan st0 a d st evs h
  subst ha
  subst hd
  refine ⟨suffixOf plan, rfl, rfl, ?_, ?_⟩
  · show (adminKeyName ++ suffixOf plan).data.drop 14 = (suffixOf plan).data
    rw [String.data_append]
    exact List.drop_left' (by decide)
  · show (deviceKeyName ++ suffixOf plan).data.drop 15 = (suffixOf plan).data
    rw [String.data_append]
    exact List.drop_left' (by decide)

/-- C10 witness: the shared suffix on a concrete successful run. -/
theorem credential_names_share_suffix_witness :
    ∃ s, adminName noFailurePlan = adminKeyName ++ s
      ∧ deviceName noFailurePlan = deviceKeyName ++ s
      ∧ (adminName noFailurePlan).data.drop 14 = s.data
      ∧ (deviceName noFailurePlan).data.drop 15 = s.data :=
  credential_names_share_suffix noFailurePlan emptyDB
    (adminName noFailurePlan) (deviceName noFailurePlan)
    { realms := [{ name := realmName, regionCode := realmRegionCode }]
      apps := [adminApp0 noFailurePlan, deviceApp0 noFailurePlan] }
    [Event.readySent none] rfl

end E2E
